import Mathlib

/-!
# Verification of the ros-checker analysis pipeline and simulation controller

A shallow embedding of `src/backend/validator.py` (`analyze_ros_code`) and
`src/backend/simulator.py` (`run_simulation`).  External effects (zip
extraction, the flake8 run, process launches, telemetry queries, termination
signals) are inputs to the embedded functions; the textual heuristics of the
validator (substring tests and the three regular expressions) are translated
character by character.
-/

set_option maxHeartbeats 1000000

namespace RosChecker

/-! ## Generic character-list scanning utilities -/

/-- `startsWithL needle hay`: `needle` is a prefix of `hay`. -/
def startsWithL : List Char → List Char → Bool
  | [], _ => true
  | _ :: _, [] => false
  | a :: as, b :: bs => a == b && startsWithL as bs

/-- `existsPos p l`: the predicate `p` holds at some position of `l`
(i.e. on some suffix of `l`, including `[]`).  This models the position scan
of Python's `re.search`. -/
def existsPos (p : List Char → Bool) : List Char → Bool
  | [] => p []
  | c :: rest => p (c :: rest) || existsPos p rest

/-- Substring test: models Python's `needle in hay`. -/
def containsSubL (needle : List Char) (hay : List Char) : Bool :=
  existsPos (fun l => startsWithL needle l) hay

/-- Substring test on `String`s. -/
def containsSubS (needle hay : String) : Bool :=
  containsSubL needle.data hay.data

theorem existsPos_eq_true_iff (p : List Char → Bool) (l : List Char) :
    existsPos p l = true ↔ ∃ t, t <:+ l ∧ p t = true := by
  induction l with
  | nil =>
    simp only [existsPos]
    constructor
    · intro h; exact ⟨[], List.suffix_refl [], h⟩
    · rintro ⟨t, ht, hp⟩
      rw [List.suffix_nil.mp ht] at hp; exact hp
  | cons c rest ih =>
    simp only [existsPos, Bool.or_eq_true, ih]
    constructor
    · rintro (h | ⟨t, ht, hp⟩)
      · exact ⟨c :: rest, List.suffix_refl _, h⟩
      · exact ⟨t, ht.trans (List.suffix_cons c rest), hp⟩
    · rintro ⟨t, ht, hp⟩
      rcases ht with ⟨pre, hpre⟩
      cases pre with
      | nil => left; simpa [← hpre] using hp
      | cons x xs =>
        right
        refine ⟨t, ⟨xs, ?_⟩, hp⟩
        have := congrArg List.tail hpre
        simpa using this

theorem existsPos_of_suffix (p : List Char → Bool) {t l : List Char}
    (hsuf : t <:+ l) (hp : p t = true) : existsPos p l = true :=
  (existsPos_eq_true_iff p l).mpr ⟨t, hsuf, hp⟩

/-! ## Character classes (ASCII models of Python's `\w`, `\s`, `\d`) -/

def isWordC (c : Char) : Bool := c.isAlphanum || c == '_'

def isSpaceC (c : Char) : Bool :=
  c == ' ' || c == '\t' || c == '\n' || c == '\r' || c == '\x0b' || c == '\x0c'

def isTopicC (c : Char) : Bool := isWordC c || c == '/'

/-- The two quote characters of the character class in the pub/sub regex. -/
def isQuoteC (c : Char) : Bool := c == Char.ofNat 39 || c == Char.ofNat 34

/-! ## validator.py: the three textual heuristics

`analyze_ros_code` tests each Python file's raw text with two substring
membership tests and three regular expressions.  Each regex is translated as
a per-position matcher combined with the `existsPos` scan (`re.search`) or a
left-to-right repeated scan (`re.findall`). -/

/-- The node-detection test of validator.py:
`'rclpy.init' in content or 'Node(' in content`. -/
def nodeMarker (content : String) : Bool :=
  containsSubS "rclpy.init" content || containsSubS "Node(" content

/-- One match attempt, at the head of `l`, of the pub/sub regex
`KEYWORD\s*\(\s*(\w+),\s*['"]([\w/]+)['"]` where `KEYWORD` is
`create_publisher` or `create_subscription`.  On success returns the two
capture groups (message type, topic) and the text following the match. -/
def matchCreateAt (keyword : List Char) (l : List Char) : Option (String × String × List Char) :=
  if startsWithL keyword l then
    let r1 := (l.drop keyword.length).dropWhile isSpaceC
    match r1 with
    | '(' :: r2 =>
      let r3 := r2.dropWhile isSpaceC
      let grp1 := r3.takeWhile isWordC
      let r4 := r3.dropWhile isWordC
      if grp1.isEmpty then none else
        match r4 with
        | ',' :: r5 =>
          let r6 := r5.dropWhile isSpaceC
          match r6 with
          | q :: r7 =>
            if isQuoteC q then
              let grp2 := r7.takeWhile isTopicC
              let r8 := r7.dropWhile isTopicC
              if grp2.isEmpty then none else
                match r8 with
                | q2 :: r9 => if isQuoteC q2 then some (grp1.asString, grp2.asString, r9) else none
                | [] => none
            else none
          | [] => none
        | _ => none
    | _ => none
  else none

/-- `re.findall` for the pub/sub regex: scan left to right, resuming after
the end of each match.  `fuel` bounds the recursion (callers pass
`l.length + 1`, which always suffices since every step consumes a
character or a nonempty match). -/
def findallCreate (keyword : List Char) : Nat → List Char → List (String × String)
  | 0, _ => []
  | _ + 1, [] => []
  | fuel + 1, c :: rest =>
    match matchCreateAt keyword (c :: rest) with
    | some (g1, g2, after) => (g1, g2) :: findallCreate keyword fuel after
    | none => findallCreate keyword fuel rest

/-- All matches of the publisher regex in a file's text. -/
def findPublishers (content : String) : List (String × String) :=
  findallCreate "create_publisher".data (content.data.length + 1) content.data

/-- All matches of the subscription regex in a file's text. -/
def findSubscribers (content : String) : List (String × String) :=
  findallCreate "create_subscription".data (content.data.length + 1) content.data

/-- Head match of `while\s+(True|1):` — on success returns the text after
the colon. -/
def whileHeadAt (l : List Char) : Option (List Char) :=
  if startsWithL "while".data l then
    let r1 := l.drop 5
    let sp := r1.takeWhile isSpaceC
    let r2 := r1.dropWhile isSpaceC
    if sp.isEmpty then none else
      if startsWithL "True".data r2 then
        match r2.drop 4 with
        | ':' :: r3 => some r3
        | _ => none
      else if startsWithL "1".data r2 then
        match r2.drop 1 with
        | ':' :: r3 => some r3
        | _ => none
      else none
  else none

/-- The negative lookahead `(?!.*?sleep|.*?rate)` applied right after a
matched newline: since `.` does not cross newlines and neither literal
contains one, it fails exactly when the line starting here contains
`sleep` or `rate`. -/
def lineLacksSleepRate (l : List Char) : Bool :=
  let line := l.takeWhile (fun c => c != '\n')
  !containsSubL "sleep".data line && !containsSubL "rate".data line

/-- After a matched `while` head, `\s*[\w\W]*?\n(?!...)` succeeds iff some
later newline is followed by a line lacking `sleep` and `rate` (the union of
`\s*` and the lazy any-character run is just an arbitrary character run, so
every later newline is a candidate). -/
def badNewlineAfter : List Char → Bool
  | [] => false
  | c :: rest =>
    (c == '\n' && lineLacksSleepRate rest) || badNewlineAfter rest

/-- Per-position matcher for the un-throttled-loop regex
`while\s+(True|1):\s*[\w\W]*?\n(?!.*?sleep|.*?rate)`. -/
def loopPatternAt (l : List Char) : Bool :=
  match whileHeadAt l with
  | some rest => badNewlineAfter rest
  | none => false

/-- `re.search` of the un-throttled-loop regex over a file's text. -/
def loopHeuristic (content : String) : Bool :=
  existsPos loopPatternAt content.data

/-- Per-position matcher for the first alternative `3\.1[456789]\d*` of the
hardcoded-value regex (`\d*` always matches, so only `3.1` plus one digit in
`4`–`9` is required). -/
def piLikeAt : List Char → Bool
  | '3' :: '.' :: '1' :: d :: _ => '4' ≤ d && d ≤ '9'
  | _ => false

/-- Per-position matcher for `[-]?\s*LIT` (with `LIT` one of `5.0`, `6.0`):
either the optional minus sign is consumed (first disjunct) or it is left
out by backtracking (second disjunct); in both cases `\s*` greedily eats
whitespace before the literal. -/
def optMinusLitAt (lit : List Char) (l : List Char) : Bool :=
  (match l with
   | '-' :: r => startsWithL lit (r.dropWhile isSpaceC)
   | _ => false)
  || startsWithL lit (l.dropWhile isSpaceC)

/-- Per-position matcher for the hardcoded-value regex
`3\.1[456789]\d*|[-]?\s*5\.0|[-]?\s*6\.0`. -/
def hardValueAt (l : List Char) : Bool :=
  piLikeAt l || optMinusLitAt ['5', '.', '0'] l || optMinusLitAt ['6', '.', '0'] l

/-- `re.search` of the hardcoded-value regex over a file's text. -/
def hardValueCheck (content : String) : Bool :=
  existsPos hardValueAt content.data

/-! ## validator.py: data model -/

/-- The overall report status lattice PASS < WARN < FAIL. -/
inductive Status
  | PASS
  | WARN
  | FAIL
deriving DecidableEq, Repr

/-- Rank in the status lattice: PASS = 0, WARN = 1, FAIL = 2. -/
def Status.rank : Status → Nat
  | .PASS => 0
  | .WARN => 1
  | .FAIL => 2

/-- Per-check statuses: the structure and per-language syntax sub-results
use PASS / FAIL / N/A. -/
inductive CheckStatus
  | PASS
  | FAIL
  | NA
deriving DecidableEq, Repr

structure SubCheck where
  status : CheckStatus
  output : String
deriving DecidableEq, Repr

/-- One entry of the `publishers` / `subscribers` lists:
`{"topic": ..., "type": ..., "file": ...}` (`type` is rendered `msgType`). -/
structure PubSubEntry where
  topic : String
  msgType : String
  file : String
deriving DecidableEq, Repr

structure RosAnalysis where
  nodes_found : Nat
  publishers : List PubSubEntry
  subscribers : List PubSubEntry
  safety_warnings : List String
deriving DecidableEq, Repr

structure Details where
  structure_check : SubCheck
  syntax_python : SubCheck
  syntax_cpp : SubCheck
  ros_analysis : RosAnalysis
deriving DecidableEq, Repr

/-- The report built on the successful-extraction path of
`analyze_ros_code`. -/
structure Report where
  status : Status
  summary : String
  details : Details
deriving DecidableEq, Repr

/-- A Python source file of the extracted tree: its basename and raw text,
in `os.walk` order. -/
structure PyFile where
  name : String
  content : String
deriving DecidableEq, Repr

/-- The result of a successful extraction plus the outcome of the external
flake8 run: everything `analyze_ros_code` observes from the filesystem and
the linter. -/
structure Archive where
  hasPackageXml : Bool
  hasBuildFile : Bool
  pyFiles : List PyFile
  hasCppFiles : Bool
  flake8Exit : Nat
  flake8Stdout : String
deriving DecidableEq, Repr

/-- What `analyze_ros_code` returns: either the full report of the main
path, or the early-return dictionary
`{"status": "FAIL", "summary": ..., "details": {}}` of the extraction
`except` branch. -/
inductive AnalyzeResult
  | fullReport (r : Report)
  | extractFail (summary : String)
deriving DecidableEq, Repr

/-- The `status` field of either return shape. -/
def AnalyzeResult.status : AnalyzeResult → Status
  | .fullReport r => r.status
  | .extractFail _ => .FAIL

/-! ## validator.py: the pipeline stages of `analyze_ros_code` -/

/-- The initial report literal of `analyze_ros_code`. -/
def initialReport : Report :=
  { status := .PASS
    summary := "Code Passed Checks"
    details :=
      { structure_check := { status := .FAIL, output := "Missing ROS package files." }
        syntax_python := { status := .NA, output := "No Python files found." }
        syntax_cpp := { status := .NA, output := "No C++ files found." }
        ros_analysis :=
          { nodes_found := 0, publishers := [], subscribers := [], safety_warnings := [] } } }

/-- Stage 2, the ROS structure check: `package.xml` and a build file present
at the extraction root pass, anything else sets the overall status to WARN. -/
def structureStage (a : Archive) (r : Report) : Report :=
  if a.hasPackageXml && a.hasBuildFile then
    { r with details :=
        { r.details with structure_check :=
            { status := .PASS, output := "package.xml and build file found." } } }
  else
    { r with status := .WARN
             summary := "Structure Warning: Missing package.xml or build file." }

/-- Stage 3a, the flake8 run: only performed when Python files exist; a
nonzero exit code fails the language check and the overall status. -/
def pythonStage (a : Archive) (r : Report) : Report :=
  if a.pyFiles.isEmpty then r
  else if a.flake8Exit != 0 then
    { r with status := .FAIL
             summary := "Code Failed: Python syntax errors found (Flake8)."
             details :=
               { r.details with syntax_python :=
                   { status := .FAIL, output := a.flake8Stdout.trim } } }
  else
    { r with details :=
        { r.details with syntax_python :=
            { status := .PASS, output := a.flake8Stdout.trim } } }

/-- Stage 3b, the C++ placeholder check: the presence of C++ files yields
an unconditional PASS sub-result. -/
def cppStage (a : Archive) (r : Report) : Report :=
  if a.hasCppFiles then
    { r with details :=
        { r.details with syntax_cpp :=
            { status := .PASS
              output := "C++ files found, simplistic check passed (full build requires environment)." } } }
  else r

/-- The safety-warning line appended for an un-throttled loop. -/
def loopWarning (name : String) : String :=
  "File " ++ name ++ ": Potential un-throttled loop detected."

/-- The safety-warning line appended for a hardcoded large value. -/
def hardValueWarning (name : String) : String :=
  "File " ++ name ++ ": Hardcoded value that could be outside safe joint limits detected."

/-- One iteration of the per-file loop of stage 4, threading
(node counter, publishers, subscribers, safety warnings). -/
def scanFold (acc : Nat × List PubSubEntry × List PubSubEntry × List String)
    (f : PyFile) : Nat × List PubSubEntry × List PubSubEntry × List String :=
  match acc with
  | (n, ps, ss, ws) =>
    let n2 := if nodeMarker f.content then n + 1 else n
    let ps2 := ps ++ (findPublishers f.content).map
      (fun g => { topic := g.2, msgType := g.1, file := f.name })
    let ss2 := ss ++ (findSubscribers f.content).map
      (fun g => { topic := g.2, msgType := g.1, file := f.name })
    let ws2 := ws ++ (if loopHeuristic f.content then [loopWarning f.name] else [])
    let ws3 := ws2 ++ (if hardValueCheck f.content then [hardValueWarning f.name] else [])
    (n2, ps2, ss2, ws3)

/-- Stage 4, ROS node analysis and safety heuristics: scan every Python
file, record the results, then escalate to WARN when any safety warning
exists and the status is not already FAIL. -/
def rosStage (a : Archive) (r : Report) : Report :=
  let res := a.pyFiles.foldl scanFold (0, [], [], [])
  let r2 := { r with details :=
      { r.details with ros_analysis :=
          { nodes_found := res.1
            publishers := res.2.1
            subscribers := res.2.2.1
            safety_warnings := res.2.2.2 } } }
  if res.2.2.2.isEmpty then r2
  else if r2.status = .FAIL then r2
  else { r2 with status := .WARN, summary := "Code Passed, but safety warnings found." }

/-- The report after stage 2 (structure check). -/
def report1 (a : Archive) : Report := structureStage a initialReport

/-- The report after stage 3 (both syntax checks). -/
def report2 (a : Archive) : Report := cppStage a (pythonStage a (report1 a))

/-- The report after stage 4 (node analysis and safety heuristics); stage 5
serializes exactly this report. -/
def report3 (a : Archive) : Report := rosStage a (report2 a)

/-- `analyze_ros_code`, with the filesystem folded into the inputs: the
first argument is the outcome of extraction (plus everything later stages
read), the second the previously persisted report file.  Returns the report
the function returns together with the new persisted state: the extraction
`except` branch returns before `json.dump`, so it leaves the persisted file
untouched, while the main path overwrites it with the final report. -/
def analyze_ros_code (inp : Except String Archive) (persisted : Option AnalyzeResult) :
    AnalyzeResult × Option AnalyzeResult :=
  match inp with
  | .error e => (.extractFail ("Failed to extract ZIP: " ++ e), persisted)
  | .ok a => (.fullReport (report3 a), some (.fullReport (report3 a)))

/-! ## simulator.py: data model

`run_simulation` interacts with the outside world through two
`subprocess.Popen` calls (which either yield a process id or raise), one
bounded-timeout `subprocess.run` telemetry query per tick (which either
yields captured stdout or raises `TimeoutExpired`, the only exception the
loop catches), and two `os.killpg` calls (which either succeed or raise,
e.g. `ProcessLookupError`; the source wraps neither in a handler).  A
`SimWorld` fixes the outcome of every such interaction; the embedded run
returns its result, the log-file lines and the trace of external actions. -/

/-- Outcome of a `subprocess.Popen` call. -/
inductive PopenResult
  | ok (pid : Nat)
  | exn (e : String)
deriving DecidableEq, Repr

/-- Outcome of one telemetry query (`subprocess.run` ... `timeout=3`). -/
inductive QueryResult
  | out (stdout : String)
  | timeout
deriving DecidableEq, Repr

/-- Outcome of one `os.killpg(os.getpgid(pid), SIGTERM)` call. -/
inductive SignalResult
  | sigOk
  | sigRaise (e : String)
deriving DecidableEq, Repr

/-- All external-interaction outcomes one run can observe. -/
structure SimWorld where
  envLaunch : PopenResult
  userLaunch : PopenResult
  ticks : Nat → QueryResult
  envSignal : SignalResult
  userSignal : SignalResult

/-- The value `run_simulation` returns when it returns: the `except` branch
of the environment launch returns the Python literal `False`; the normal
path returns the string `"PASS"` or `"FAIL"`. -/
inductive SimRet
  | boolFalse
  | statusStr (s : Status)
deriving DecidableEq, Repr

/-- How a run ends: a normal return, or an exception propagating out of
`run_simulation` (nothing in the source catches it). -/
inductive RunResult
  | ret (v : SimRet)
  | exn (e : String)
deriving DecidableEq, Repr

/-- The log lines `run_simulation` writes, with the variable parts as
constructor arguments (the start-line timestamp is elided). -/
inductive LogEntry
  | simStart
  | launched (pid : Nat)
  | errorLaunching (e : String)
  | waiting15
  | userRunning (pid : Nat)
  | running20
  | motionConfirmed (t : Nat)
  | noJointState (t : Nat)
  | echoTimedOut (t : Nat)
  | simEnd
  | resultLine (s : Status)
deriving DecidableEq, Repr

/-- External actions of one run, in program order. -/
inductive SimAction
  | popenEnv
  | popenUser
  | sleepSec (n : Nat)
  | queryOnce (timeoutSec : Nat)
  | killpgEnv
  | killpgUser
deriving DecidableEq, Repr

structure SimOutcome where
  result : RunResult
  log : List LogEntry
  trace : List SimAction
deriving Repr

/-- `simulation_time = 20` of the source; the window is
`range(simulation_time // 5)` ticks of 5 seconds each. -/
def simulation_time : Nat := 20

/-- One tick of the monitored window: the query result decides the log line
and whether `motion_detected` is set; a confirmed tick sets it for the rest
of the run, anything else leaves it unchanged. -/
def windowTick (w : SimWorld) (st : Bool × List LogEntry) (i : Nat) :
    Bool × List LogEntry :=
  match w.ticks i with
  | .out s =>
    if containsSubS "position" s then (true, st.2 ++ [.motionConfirmed (i * 5)])
    else (st.1, st.2 ++ [.noJointState (i * 5)])
  | .timeout => (st.1, st.2 ++ [.echoTimedOut (i * 5)])

/-- `run_simulation`, with the external world as input.  The control flow of
the source is linear: environment launch (its `except` branch returns
`False`); 15-second stabilization sleep; user launch (no handler — an
exception propagates); the monitored window of `simulation_time // 5` ticks,
each a 5-second sleep plus a 3-second-timeout query; then the two
unguarded `os.killpg` calls, a 2-second sleep, and the verdict. -/
def run_simulation (w : SimWorld) : SimOutcome :=
  match w.envLaunch with
  | .exn e =>
    { result := .ret .boolFalse
      log := [.simStart, .errorLaunching e]
      trace := [.popenEnv] }
  | .ok simPid =>
    match w.userLaunch with
    | .exn e =>
      { result := .exn e
        log := [.simStart, .launched simPid, .waiting15]
        trace := [.popenEnv, .sleepSec 15, .popenUser] }
    | .ok userPid =>
      let wres := (List.range (simulation_time / 5)).foldl (windowTick w) (false, [])
      let logW := [.simStart, .launched simPid, .waiting15, .userRunning userPid,
                   .running20] ++ wres.2 ++ [.simEnd]
      let traceW := [.popenEnv, .sleepSec 15, .popenUser] ++
        (List.range (simulation_time / 5)).foldl
          (fun t _ => t ++ [.sleepSec 5, .queryOnce 3]) [] ++ [.killpgEnv]
      match w.envSignal with
      | .sigRaise e => { result := .exn e, log := logW, trace := traceW }
      | .sigOk =>
        match w.userSignal with
        | .sigRaise e =>
          { result := .exn e, log := logW, trace := traceW ++ [.killpgUser] }
        | .sigOk =>
          let status := if wres.1 then Status.PASS else Status.FAIL
          { result := .ret (.statusStr status)
            log := logW ++ [.resultLine status]
            trace := traceW ++ [.killpgUser, .sleepSec 2] }

/-- A tick is confirmed when its query returned output containing the
live-telemetry marker `"position"`. -/
def tickConfirmed (w : SimWorld) (i : Nat) : Bool :=
  match w.ticks i with
  | .out s => containsSubS "position" s
  | .timeout => false

/-- The run got past both launches, so the monitored window executed. -/
def reachesWindow (w : SimWorld) : Prop :=
  (∃ p, w.envLaunch = .ok p) ∧ (∃ p, w.userLaunch = .ok p)

/-- Number of `timed out` lines in a log. -/
def countTimeoutLogs (log : List LogEntry) : Nat :=
  (log.filter fun e => match e with | .echoTimedOut _ => true | _ => false).length

/-! ## Lemmas about the validator pipeline -/

/-- The safety warnings one file contributes, in source order: the loop
warning first, the value warning second. -/
def fileWarnings (f : PyFile) : List String :=
  (if loopHeuristic f.content then [loopWarning f.name] else []) ++
  (if hardValueCheck f.content then [hardValueWarning f.name] else [])

/-- The concatenated safety warnings of a file list, in encounter order. -/
def warningsList : List PyFile → List String
  | [] => []
  | f :: t => fileWarnings f ++ warningsList t

theorem scanFold_nodes (l : List PyFile) (n : Nat) (ps ss : List PubSubEntry)
    (ws : List String) :
    (l.foldl scanFold (n, ps, ss, ws)).1
      = n + l.countP (fun f => nodeMarker f.content) := by
  induction l generalizing n ps ss ws with
  | nil => simp
  | cons f t ih =>
    simp only [List.foldl_cons, List.countP_cons, scanFold]
    by_cases h : nodeMarker f.content
    · simp [h, ih]; omega
    · simp [h, ih]

theorem scanFold_warnings (l : List PyFile) (n : Nat) (ps ss : List PubSubEntry)
    (ws : List String) :
    (l.foldl scanFold (n, ps, ss, ws)).2.2.2 = ws ++ warningsList l := by
  induction l generalizing n ps ss ws with
  | nil => simp [warningsList]
  | cons f t ih =>
    simp only [List.foldl_cons, scanFold, warningsList, fileWarnings]
    rw [ih]
    simp [List.append_assoc]

theorem report3_structure (a : Archive) :
    (report3 a).details.structure_check.status
      = (if a.hasPackageXml && a.hasBuildFile then .PASS else .FAIL) := by
  unfold report3 rosStage report2 cppStage pythonStage report1 structureStage initialReport
  by_cases h1 : (a.hasPackageXml && a.hasBuildFile) = true <;>
  by_cases h2 : a.pyFiles.isEmpty <;>
  by_cases h3 : a.flake8Exit != 0 <;>
  by_cases h4 : a.hasCppFiles <;>
    simp [h1, h2, h3, h4] <;> split <;> simp

theorem report3_python (a : Archive) :
    (report3 a).details.syntax_python.status
      = (if a.pyFiles.isEmpty then .NA
         else if a.flake8Exit != 0 then .FAIL else .PASS) := by
  unfold report3 rosStage report2 cppStage pythonStage report1 structureStage initialReport
  by_cases h1 : (a.hasPackageXml && a.hasBuildFile) = true <;>
  by_cases h2 : a.pyFiles.isEmpty <;>
  by_cases h3 : a.flake8Exit != 0 <;>
  by_cases h4 : a.hasCppFiles <;>
    simp [h1, h2, h3, h4] <;> split <;> simp

theorem report3_cpp (a : Archive) :
    (report3 a).details.syntax_cpp.status
      = (if a.hasCppFiles then .PASS else .NA) := by
  unfold report3 rosStage report2 cppStage pythonStage report1 structureStage initialReport
  by_cases h1 : (a.hasPackageXml && a.hasBuildFile) = true <;>
  by_cases h2 : a.pyFiles.isEmpty <;>
  by_cases h3 : a.flake8Exit != 0 <;>
  by_cases h4 : a.hasCppFiles <;>
    simp [h1, h2, h3, h4] <;> split <;> simp

theorem report3_warnings (a : Archive) :
    (report3 a).details.ros_analysis.safety_warnings = warningsList a.pyFiles := by
  unfold report3 rosStage
  simp only [scanFold_warnings, List.nil_append]
  split
  · rfl
  · split <;> rfl

theorem report3_nodes (a : Archive) :
    (report3 a).details.ros_analysis.nodes_found
      = a.pyFiles.countP (fun f => nodeMarker f.content) := by
  unfold report3 rosStage
  simp only [scanFold_nodes]
  split
  · simp [scanFold_nodes]
  · split <;> simp [scanFold_nodes]

theorem report3_status (a : Archive) :
    (report3 a).status
      = (if !a.pyFiles.isEmpty && a.flake8Exit != 0 then .FAIL
         else if !(a.hasPackageXml && a.hasBuildFile) || !(warningsList a.pyFiles).isEmpty
         then .WARN else .PASS) := by
  unfold report3 rosStage report2 cppStage pythonStage report1 structureStage initialReport
  simp only [scanFold_warnings, List.nil_append]
  by_cases h1 : (a.hasPackageXml && a.hasBuildFile) = true <;>
  by_cases h2 : a.pyFiles.isEmpty <;>
  by_cases h3 : a.flake8Exit != 0 <;>
  by_cases h4 : a.hasCppFiles <;>
  by_cases h5 : (warningsList a.pyFiles).isEmpty <;>
    simp [h1, h2, h3, h4, h5]

theorem Status.rank_le_two (s : Status) : s.rank ≤ 2 := by
  cases s <;> simp [Status.rank]

/-! ## Claims about the analyzer -/

/-- C1.  For every archive that extracts successfully, the report's status
is FAIL iff one of the per-language syntax sub-checks is FAIL; otherwise it
is WARN iff the structure check is incomplete or at least one safety
warning was recorded; otherwise it is PASS.  An archive that fails to
extract always yields status FAIL. -/
theorem claim_C1 :
    (∀ e p, ((analyze_ros_code (.error e) p).1).status = .FAIL)
    ∧ ∀ a p,
      (((analyze_ros_code (.ok a) p).1).status = .FAIL ↔
        ((report3 a).details.syntax_python.status = .FAIL
          ∨ (report3 a).details.syntax_cpp.status = .FAIL))
      ∧ (((analyze_ros_code (.ok a) p).1).status = .WARN ↔
        (¬((report3 a).details.syntax_python.status = .FAIL
            ∨ (report3 a).details.syntax_cpp.status = .FAIL)
          ∧ ((report3 a).details.structure_check.status = .FAIL
            ∨ (report3 a).details.ros_analysis.safety_warnings ≠ [])))
      ∧ (((analyze_ros_code (.ok a) p).1).status = .PASS ↔
        (¬((report3 a).details.syntax_python.status = .FAIL
            ∨ (report3 a).details.syntax_cpp.status = .FAIL)
          ∧ ¬((report3 a).details.structure_check.status = .FAIL
            ∨ (report3 a).details.ros_analysis.safety_warnings ≠ []))) := by
  constructor
  · intro e p; rfl
  · intro a p
    have hst : ((analyze_ros_code (.ok a) p).1).status = (report3 a).status := rfl
    rw [hst, report3_status a, report3_python a, report3_cpp a, report3_structure a,
        report3_warnings a]
    by_cases h1 : (a.hasPackageXml && a.hasBuildFile) = true <;>
    by_cases h2 : a.pyFiles.isEmpty <;>
    by_cases h3 : a.flake8Exit != 0 <;>
    by_cases h4 : a.hasCppFiles <;>
    by_cases h5 : warningsList a.pyFiles = [] <;>
      simp [h1, h2, h3, h4, h5, List.isEmpty_eq_true]

/-- C4.  Within one invocation of analyze on a successfully extracted
archive, the overall status only ever moves up the lattice
PASS < WARN < FAIL across the pipeline stages (structure check, syntax
checks, safety heuristics), and persistence stores exactly the final
report: no stage moves the status back down. -/
theorem claim_C4 (a : Archive) (p : Option AnalyzeResult) :
    initialReport.status.rank ≤ (report1 a).status.rank
    ∧ (report1 a).status.rank ≤ (report2 a).status.rank
    ∧ (report2 a).status.rank ≤ (report3 a).status.rank
    ∧ (analyze_ros_code (.ok a) p).1 = .fullReport (report3 a)
    ∧ (analyze_ros_code (.ok a) p).2 = some (.fullReport (report3 a)) := by
  refine ⟨?_, ?_, ?_, rfl, rfl⟩ <;>
  · simp only [report3, rosStage, report2, cppStage, pythonStage, report1, structureStage,
      initialReport]
    by_cases h1 : (a.hasPackageXml && a.hasBuildFile) = true <;>
    by_cases h2 : a.pyFiles.isEmpty <;>
    by_cases h3 : a.flake8Exit != 0 <;>
    by_cases h4 : a.hasCppFiles <;>
    by_cases h5 : ((a.pyFiles.foldl scanFold (0, [], [], [])).2.2.2).isEmpty <;>
      simp [h1, h2, h3, h4, h5, Status.rank]

/-- A previously persisted report, used to exhibit that the extraction
failure path does not overwrite the report file. -/
def prevResult : AnalyzeResult := .fullReport initialReport

/-- C6 counterexample.  On an archive that fails to extract,
`analyze_ros_code` returns a FAIL report but leaves the persisted file
untouched (the `except` branch returns before `json.dump`), so the
persisted report is NOT the report of the most recent run. -/
theorem claim_C6_cex :
    (analyze_ros_code (.error "bad zip") (some prevResult)).2 = some prevResult
    ∧ (analyze_ros_code (.error "bad zip") (some prevResult)).2
      ≠ some (analyze_ros_code (.error "bad zip") (some prevResult)).1 := by
  exact ⟨rfl, by decide⟩

/-- C6 amended.  Every invocation of analyze on an archive that extracts
successfully serializes the resulting report, fully replacing the previous
run's persisted report; on extraction failure the FAIL report is returned
without being persisted, so the persisted file keeps the previous
content. -/
theorem claim_C6_amended :
    (∀ a p, (analyze_ros_code (.ok a) p).2 = some (analyze_ros_code (.ok a) p).1)
    ∧ (∀ e p, (analyze_ros_code (.error e) p).2 = p) :=
  ⟨fun _ _ => rfl, fun _ _ => rfl⟩

/-- C10.  For every successfully extracted archive, `nodes_found` counts
exactly the Python files whose text contains one of the two node markers —
each file increments the counter at most once — so it is bounded by the
number of Python files. -/
theorem claim_C10 (a : Archive) :
    (report3 a).details.ros_analysis.nodes_found
      = a.pyFiles.countP (fun f => nodeMarker f.content)
    ∧ (report3 a).details.ros_analysis.nodes_found ≤ a.pyFiles.length := by
  refine ⟨report3_nodes a, ?_⟩
  rw [report3_nodes a]
  exact List.countP_le_length _

/-! ## Claim C8: the hardcoded-value heuristic -/

theorem existsPos_congr (p q : List Char → Bool) (h : ∀ t, p t = q t)
    (l : List Char) : existsPos p l = existsPos q l := by
  induction l with
  | nil => simp [existsPos, h]
  | cons c r ih => simp [existsPos, h, ih]

theorem existsPos_or (p q : List Char → Bool) (l : List Char) :
    existsPos (fun t => p t || q t) l = (existsPos p l || existsPos q l) := by
  induction l with
  | nil => rfl
  | cons c r ih =>
    cases hp : p (c :: r) <;> cases hq : q (c :: r) <;>
      simp [existsPos, hp, hq, ih]

theorem existsPos_optMinusLit (d : Char) (tl : List Char) (l : List Char)
    (hd : isSpaceC d = false) :
    existsPos (optMinusLitAt (d :: tl)) l = containsSubL (d :: tl) l := by
  cases hv : containsSubL (d :: tl) l with
  | true =>
    obtain ⟨t, hsuf, hp⟩ := (existsPos_eq_true_iff _ _).mp hv
    apply (existsPos_eq_true_iff _ _).mpr
    refine ⟨t, hsuf, ?_⟩
    unfold optMinusLitAt
    rw [Bool.or_eq_true]
    right
    cases t with
    | nil => simp [startsWithL] at hp
    | cons c r =>
      have hc : c = d := by
        simp only [startsWithL, Bool.and_eq_true, beq_iff_eq] at hp
        exact hp.1.symm
      subst hc
      simpa [List.dropWhile_cons, hd] using hp
  | false =>
    cases hw : existsPos (optMinusLitAt (d :: tl)) l with
    | false => rfl
    | true =>
      exfalso
      obtain ⟨t, hsuf, hp⟩ := (existsPos_eq_true_iff _ _).mp hw
      unfold optMinusLitAt at hp
      rw [Bool.or_eq_true] at hp
      rw [Bool.eq_false_iff] at hv
      apply hv
      rcases hp with hp | hp
      · split at hp
        · rename_i r
          exact existsPos_of_suffix _
            ((List.dropWhile_suffix _).trans ((List.suffix_cons _ _).trans hsuf)) hp
        · exact absurd hp (by simp)
      · exact existsPos_of_suffix _ ((List.dropWhile_suffix _).trans hsuf) hp

/-- The characterization behind the amended C8: since the optional minus
sign and whitespace of `[-]?\s*5\.0` and `[-]?\s*6\.0` are optional, a
search for those alternatives succeeds exactly when `5.0` / `6.0` occurs as
a plain substring, so the heuristic fires iff the text contains `5.0`,
`6.0`, or `3.1` followed by a digit in `4`–`9`. -/
theorem hardValueCheck_iff (s : String) :
    hardValueCheck s = true ↔
      (containsSubL ['5', '.', '0'] s.data = true
        ∨ containsSubL ['6', '.', '0'] s.data = true
        ∨ existsPos piLikeAt s.data = true) := by
  unfold hardValueCheck
  rw [existsPos_congr hardValueAt
        (fun t => (piLikeAt t || optMinusLitAt ['5', '.', '0'] t)
          || optMinusLitAt ['6', '.', '0'] t)
      (fun t => rfl)]
  rw [existsPos_or, existsPos_or]
  rw [existsPos_optMinusLit '5' ['.', '0'] s.data (by decide),
      existsPos_optMinusLit '6' ['.', '0'] s.data (by decide)]
  simp [Bool.or_eq_true]
  tauto

theorem mem_warningsList (l : List PyFile) (f : PyFile) (hf : f ∈ l)
    (hv : hardValueCheck f.content = true) :
    hardValueWarning f.name ∈ warningsList l := by
  induction l with
  | nil => cases hf
  | cons g t ih =>
    rcases List.mem_cons.mp hf with h | h
    · subst h
      unfold warningsList fileWarnings
      apply List.mem_append_left
      apply List.mem_append_right
      simp [hv]
    · exact List.mem_append_right _ (ih h)

/-- The value a decimal-digit run denotes. -/
def digitsToNat (l : List Char) : Nat :=
  l.foldl (fun n c => n * 10 + (c.toNat - '0'.toNat)) 0

/-- Modelled from the spec: "numeric literals close to common unsafe
magnitudes (near π, or ≥5.0/≤−5.0) anywhere in the file" — the spec's
notion of an unsafe numeric literal, which the code does not implement as
written.  A numeric literal here is an optional minus sign, one or more
digits, a dot, and one or more digits; its magnitude is at least 5 iff its
integer part is at least 5, and it is close to π iff it reads 3.14…
(within 0.01 of π = 3.14159…). -/
def specRiskyLiteralAt (l : List Char) : Bool :=
  let l1 := match l with | '-' :: r => r | _ => l
  let ip := l1.takeWhile Char.isDigit
  let rest := l1.dropWhile Char.isDigit
  match ip, rest with
  | _ :: _, '.' :: fr =>
    let fd := fr.takeWhile Char.isDigit
    if fd.isEmpty then false
    else decide (5 ≤ digitsToNat ip)
      || (decide (digitsToNat ip = 3) && fd.take 2 == ['1', '4'])
  | _, _ => false

/-- The spec's per-file condition: some position of the text carries an
unsafe numeric literal in the spec's sense. -/
def specRiskyLiteral (s : String) : Bool :=
  existsPos specRiskyLiteralAt s.data

/-- A well-formed archive whose only Python file contains the literal
`7.5` — magnitude ≥ 5.0, hence unsafe per the spec. -/
def A8 : Archive :=
  { hasPackageXml := true, hasBuildFile := true
    pyFiles := [{ name := "bad.py", content := "x = 7.5" }]
    hasCppFiles := false, flake8Exit := 0, flake8Stdout := "" }

/-- C8 counterexample.  The file text `x = 7.5` contains a numeric literal
of magnitude at least 5.0, yet the hardcoded-value regex
`3\.1[456789]\d*|[-]?\s*5\.0|[-]?\s*6\.0` does not match it, and the
pipeline appends no safety warning for the file: the heuristic does not
flag every literal of magnitude ≥ 5.0, only the exact patterns `5.0`,
`6.0` and `3.1[4-9]…`. -/
theorem claim_C8_cex :
    specRiskyLiteral "x = 7.5" = true
    ∧ hardValueCheck "x = 7.5" = false
    ∧ (report3 A8).details.ros_analysis.safety_warnings = [] :=
  ⟨by decide, by decide, by decide⟩

/-- C8 amended.  The numeric-magnitude heuristic flags a file exactly when
its text contains `5.0` or `6.0` (an optional minus sign and whitespace
before them are irrelevant) or `3.1` followed by a digit in `4`–`9`; for
every such file one warning is appended, in encounter order. -/
theorem claim_C8_amended :
    (∀ s : String, hardValueCheck s = true ↔
      (containsSubL ['5', '.', '0'] s.data = true
        ∨ containsSubL ['6', '.', '0'] s.data = true
        ∨ existsPos piLikeAt s.data = true))
    ∧ ∀ (a : Archive) (f : PyFile), f ∈ a.pyFiles → hardValueCheck f.content = true →
      hardValueWarning f.name ∈ (report3 a).details.ros_analysis.safety_warnings := by
  refine ⟨hardValueCheck_iff, ?_⟩
  intro a f hf hv
  rw [report3_warnings a]
  exact mem_warningsList a.pyFiles f hf hv

/-- A well-formed archive whose only Python file contains `-5.0`. -/
def A8w : Archive :=
  { hasPackageXml := true, hasBuildFile := true
    pyFiles := [{ name := "m.py", content := "x = -5.0" }]
    hasCppFiles := false, flake8Exit := 0, flake8Stdout := "" }

theorem claim_C8_witness :
    hardValueWarning "m.py" ∈ (report3 A8w).details.ros_analysis.safety_warnings :=
  claim_C8_amended.2 A8w { name := "m.py", content := "x = -5.0" }
    (by simp [A8w]) (by decide)

/-! ## Lemmas about the simulation controller -/

theorem windowFold_motion (w : SimWorld) (l : List Nat) (b : Bool)
    (lg : List LogEntry) :
    (l.foldl (windowTick w) (b, lg)).1 = (b || l.any fun i => tickConfirmed w i) := by
  induction l generalizing b lg with
  | nil => simp
  | cons i t ih =>
    simp only [List.foldl_cons, List.any_cons]
    cases hq : w.ticks i with
    | out s =>
      by_cases hc : containsSubS "position" s = true <;>
        simp [windowTick, tickConfirmed, hq, hc, ih, Bool.or_assoc]
    | timeout => simp [windowTick, tickConfirmed, hq, ih]

/-! ## Claims about the simulation controller -/

/-- C2.  For every run that reaches the monitored window and returns a
verdict, the verdict is PASS iff at least one of the polling ticks observed
the live-telemetry marker in the query output; with zero confirmed ticks
(including when every query times out) it is FAIL. -/
theorem claim_C2 (w : SimWorld) (s : Status)
    (_hw : reachesWindow w)
    (hres : (run_simulation w).result = .ret (.statusStr s)) :
    (s = .PASS ↔ ∃ i < simulation_time / 5, tickConfirmed w i = true)
    ∧ (s = .FAIL ↔ ¬∃ i < simulation_time / 5, tickConfirmed w i = true) := by
  unfold run_simulation at hres
  split at hres
  · simp at hres
  · split at hres
    · simp at hres
    · dsimp only at hres
      split at hres
      · simp at hres
      · split at hres
        · simp at hres
        · simp only [RunResult.ret.injEq, SimRet.statusStr.injEq] at hres
          rw [windowFold_motion w _ false []] at hres
          simp only [Bool.false_or] at hres
          cases hm : (List.range (simulation_time / 5)).any fun i => tickConfirmed w i with
          | true =>
            rw [hm] at hres
            simp only [if_true] at hres
            subst hres
            simp only [List.any_eq_true, List.mem_range] at hm
            obtain ⟨i, hi, hc⟩ := hm
            constructor
            · simp only [true_iff]
              exact ⟨i, hi, hc⟩
            · constructor
              · intro h; cases h
              · intro h; exact absurd ⟨i, hi, hc⟩ h
          | false =>
            rw [hm] at hres
            simp at hres
            subst hres
            have hno : ¬∃ i < simulation_time / 5, tickConfirmed w i = true := by
              intro hex
              obtain ⟨i, hi, hc⟩ := hex
              have : (List.range (simulation_time / 5)).any
                  (fun i => tickConfirmed w i) = true :=
                List.any_eq_true.mpr ⟨i, List.mem_range.mpr hi, hc⟩
              rw [hm] at this
              cases this
            constructor
            · constructor
              · intro h; cases h
              · intro h; exact absurd h hno
            · simp [hno]

/-- A window world on which every tick is confirmed at tick 0 and times
out afterwards; used to instantiate C2. -/
def W2w : SimWorld :=
  { envLaunch := .ok 10, userLaunch := .ok 11
    ticks := fun i => if i = 0 then .out "position: [0.0]" else .timeout
    envSignal := .sigOk, userSignal := .sigOk }

theorem claim_C2_witness :
    (Status.PASS = .PASS ↔ ∃ i < simulation_time / 5, tickConfirmed W2w i = true)
    ∧ (Status.PASS = .FAIL ↔ ¬∃ i < simulation_time / 5, tickConfirmed W2w i = true) :=
  claim_C2 W2w .PASS ⟨⟨10, rfl⟩, ⟨11, rfl⟩⟩ (by decide)

/-- A run in which the environment launch succeeds but the user-executable
`Popen` raises. -/
def W3c : SimWorld :=
  { envLaunch := .ok 100, userLaunch := .exn "boom"
    ticks := fun _ => .timeout, envSignal := .sigOk, userSignal := .sigOk }

/-- C3 counterexample.  The environment launch succeeds, the
user-executable launch raises — and teardown is never executed: neither
process group receives a termination signal (the second `Popen` is not
wrapped in any handler, so the exception propagates past the cleanup
block). -/
theorem claim_C3_cex :
    (∃ p, W3c.envLaunch = .ok p)
    ∧ (run_simulation W3c).trace.count .killpgEnv = 0
    ∧ (run_simulation W3c).trace.count .killpgUser = 0
    ∧ (run_simulation W3c).result = .exn "boom" :=
  ⟨⟨100, rfl⟩, by decide, by decide, by decide⟩

/-- C3 amended.  Teardown (one termination signal to each process group) is
executed exactly once in every run in which both launches succeed and the
two signals themselves do not raise — in particular whatever the ticks
observe, so also when every query times out.  A raising user launch or a
raising signal instead propagates, skipping the rest of the cleanup. -/
theorem claim_C3_amended (w : SimWorld) (ep up : Nat)
    (he : w.envLaunch = .ok ep) (hu : w.userLaunch = .ok up)
    (hes : w.envSignal = .sigOk) (hus : w.userSignal = .sigOk) :
    (run_simulation w).trace.count .killpgEnv = 1
    ∧ (run_simulation w).trace.count .killpgUser = 1 := by
  unfold run_simulation
  rw [he, hu, hes, hus]
  constructor <;> rfl

/-- A run in which everything external succeeds and every query times
out. -/
def W3w : SimWorld :=
  { envLaunch := .ok 1, userLaunch := .ok 2
    ticks := fun _ => .timeout, envSignal := .sigOk, userSignal := .sigOk }

theorem claim_C3_witness :
    (run_simulation W3w).trace.count .killpgEnv = 1
    ∧ (run_simulation W3w).trace.count .killpgUser = 1 :=
  claim_C3_amended W3w 1 2 rfl rfl rfl rfl

/-- A run that completes its window with unconfirmed output ticks and then
fails to signal the environment process group. -/
def W5c : SimWorld :=
  { envLaunch := .ok 7, userLaunch := .ok 8
    ticks := fun _ => .out "no data"
    envSignal := .sigRaise "No such process", userSignal := .sigOk }

/-- C5 counterexample.  When the first `os.killpg` raises, the exception
propagates out of `run_simulation`: the run returns no Status at all —
neither PASS, nor FAIL, nor the `False` of the launch-failure branch. -/
theorem claim_C5_cex :
    (run_simulation W5c).result = .exn "No such process"
    ∧ (run_simulation W5c).result ≠ .ret (.statusStr .PASS)
    ∧ (run_simulation W5c).result ≠ .ret (.statusStr .FAIL)
    ∧ (run_simulation W5c).result ≠ .ret .boolFalse :=
  ⟨by decide, by decide, by decide, by decide⟩

/-- C5 amended.  In every run whose launches and termination signals do not
raise, `run_simulation` returns a Status string (PASS or FAIL); when the
environment process fails to launch, the error is logged and the run
returns `False` — a FAIL-equivalent — without reaching any later stage
(the trace stops at the launch attempt). -/
theorem claim_C5_amended :
    (∀ (w : SimWorld) (ep up : Nat), w.envLaunch = .ok ep → w.userLaunch = .ok up →
      w.envSignal = .sigOk → w.userSignal = .sigOk →
      ∃ s, (run_simulation w).result = .ret (.statusStr s))
    ∧ (∀ (w : SimWorld) (e : String), w.envLaunch = .exn e →
      (run_simulation w).result = .ret .boolFalse
      ∧ (run_simulation w).log = [.simStart, .errorLaunching e]
      ∧ (run_simulation w).trace = [.popenEnv]) := by
  constructor
  · intro w ep up he hu hes hus
    unfold run_simulation
    rw [he, hu, hes, hus]
    exact ⟨_, rfl⟩
  · intro w e he
    unfold run_simulation
    rw [he]
    exact ⟨rfl, rfl, rfl⟩

/-- An all-good run used to instantiate the first part of the amended C5. -/
def W5a : SimWorld :=
  { envLaunch := .ok 3, userLaunch := .ok 4
    ticks := fun _ => .out "position: [1]", envSignal := .sigOk, userSignal := .sigOk }

/-- A run whose environment launch raises, for the second part of the
amended C5. -/
def W5b : SimWorld :=
  { envLaunch := .exn "cannot launch", userLaunch := .ok 4
    ticks := fun _ => .timeout, envSignal := .sigOk, userSignal := .sigOk }

theorem claim_C5_witness :
    (∃ s, (run_simulation W5a).result = .ret (.statusStr s))
    ∧ (run_simulation W5b).result = .ret .boolFalse
    ∧ (run_simulation W5b).log = [.simStart, .errorLaunching "cannot launch"]
    ∧ (run_simulation W5b).trace = [.popenEnv] :=
  ⟨claim_C5_amended.1 W5a 3 4 rfl rfl rfl rfl,
   claim_C5_amended.2 W5b "cannot launch" rfl⟩

/-- A run that reaches teardown with motion confirmed, whose environment
process group can no longer be signalled. -/
def W7c : SimWorld :=
  { envLaunch := .ok 20, userLaunch := .ok 21
    ticks := fun _ => .out "position: [0.1]"
    envSignal := .sigRaise "stale process group", userSignal := .sigOk }

/-- C7 counterexample.  A failure while signalling the environment process
group is NOT swallowed: the exception propagates, the user process group is
never signalled, and no verdict is returned — even though every tick
confirmed motion. -/
theorem claim_C7_cex :
    (run_simulation W7c).trace.count .killpgUser = 0
    ∧ (run_simulation W7c).result = .exn "stale process group"
    ∧ (run_simulation W7c).result ≠ .ret (.statusStr .PASS) :=
  ⟨by decide, by decide, by decide⟩

/-- C7 amended.  For every run that reaches teardown, a failure while
signalling a process group propagates out of `run_simulation`: when the
environment-group signal raises, the user group is never signalled and no
verdict is returned; when it succeeds and the user-group signal raises, the
run likewise ends with the exception instead of a verdict. -/
theorem claim_C7_amended :
    (∀ (w : SimWorld) (ep up : Nat) (e : String),
      w.envLaunch = .ok ep → w.userLaunch = .ok up → w.envSignal = .sigRaise e →
      (run_simulation w).result = .exn e
      ∧ (run_simulation w).trace.count .killpgUser = 0)
    ∧ (∀ (w : SimWorld) (ep up : Nat) (e : String),
      w.envLaunch = .ok ep → w.userLaunch = .ok up → w.envSignal = .sigOk →
      w.userSignal = .sigRaise e →
      (run_simulation w).result = .exn e) := by
  constructor
  · intro w ep up e he hu hes
    unfold run_simulation
    rw [he, hu, hes]
    exact ⟨rfl, rfl⟩
  · intro w ep up e he hu hes hus
    unfold run_simulation
    rw [he, hu, hes, hus]

/-- A run whose environment-group signal raises, for the first part of the
amended C7. -/
def W7a : SimWorld :=
  { envLaunch := .ok 40, userLaunch := .ok 41
    ticks := fun _ => .timeout
    envSignal := .sigRaise "gone already", userSignal := .sigOk }

/-- A run whose user-group signal raises, for the second part of the
amended C7. -/
def W7b : SimWorld :=
  { envLaunch := .ok 50, userLaunch := .ok 51
    ticks := fun _ => .timeout
    envSignal := .sigOk, userSignal := .sigRaise "user gone" }

theorem claim_C7_witness :
    ((run_simulation W7a).result = .exn "gone already"
      ∧ (run_simulation W7a).trace.count .killpgUser = 0)
    ∧ (run_simulation W7b).result = .exn "user gone" :=
  ⟨claim_C7_amended.1 W7a 40 41 "gone already" rfl rfl rfl,
   claim_C7_amended.2 W7b 50 51 "user gone" rfl rfl rfl rfl⟩

/-- The full action trace of a run in which every external call succeeds:
both launches, the stabilization sleep, four ticks of a 5-second sleep plus
one 3-second-timeout query each, then the two termination signals and the
grace sleep. -/
def expectedFullTrace : List SimAction :=
  [.popenEnv, .sleepSec 15, .popenUser,
   .sleepSec 5, .queryOnce 3, .sleepSec 5, .queryOnce 3,
   .sleepSec 5, .queryOnce 3, .sleepSec 5, .queryOnce 3,
   .killpgEnv, .killpgUser, .sleepSec 2]

/-- A run reaching the window with every query timing out, whose
environment-group signal then raises. -/
def W9c : SimWorld :=
  { envLaunch := .ok 30, userLaunch := .ok 31
    ticks := fun _ => .timeout
    envSignal := .sigRaise "process vanished", userSignal := .sigOk }

/-- C9 counterexample.  With all four ticks timing out the run does reach
teardown — the log holds four timed-out entries — but it does not return
FAIL: the unguarded environment-group signal raises and the exception
propagates instead of a verdict. -/
theorem claim_C9_cex :
    countTimeoutLogs (run_simulation W9c).log = 4
    ∧ (run_simulation W9c).result = .exn "process vanished"
    ∧ (run_simulation W9c).result ≠ .ret (.statusStr .FAIL) :=
  ⟨by decide, by decide, by decide⟩

/-- C9 amended.  For every run that reaches the monitored window, the
window is exactly `simulation_time / 5 = 4` polling ticks, each a 5-second
sleep followed by a single 3-second-timeout query; a timed-out query is
logged and counted as unconfirmed rather than aborting the run, so with all
four ticks timing out the run still reaches teardown and — provided the two
termination signals do not raise — returns FAIL with four timed-out log
entries. -/
theorem claim_C9_amended (w : SimWorld) (ep up : Nat)
    (he : w.envLaunch = .ok ep) (hu : w.userLaunch = .ok up)
    (ht : ∀ i < simulation_time / 5, w.ticks i = .timeout)
    (hes : w.envSignal = .sigOk) (hus : w.userSignal = .sigOk) :
    simulation_time / 5 = 4
    ∧ (run_simulation w).trace = expectedFullTrace
    ∧ countTimeoutLogs (run_simulation w).log = 4
    ∧ (run_simulation w).result = .ret (.statusStr .FAIL) := by
  have h0 := ht 0 (by decide)
  have h1 := ht 1 (by decide)
  have h2 := ht 2 (by decide)
  have h3 := ht 3 (by decide)
  unfold run_simulation
  rw [he, hu, hes, hus]
  have hr : List.range (simulation_time / 5) = [0, 1, 2, 3] := rfl
  refine ⟨rfl, ?_, ?_, ?_⟩
  · rfl
  · rw [hr]
    simp only [List.foldl_cons, List.foldl_nil, windowTick, h0, h1, h2, h3]
    rfl
  · rw [hr]
    simp only [List.foldl_cons, List.foldl_nil, windowTick, h0, h1, h2, h3]
    rfl

/-- An all-timeout run with successful launches and signals, used to
instantiate the amended C9. -/
def W9w : SimWorld :=
  { envLaunch := .ok 60, userLaunch := .ok 61
    ticks := fun _ => .timeout, envSignal := .sigOk, userSignal := .sigOk }

theorem claim_C9_witness :
    simulation_time / 5 = 4
    ∧ (run_simulation W9w).trace = expectedFullTrace
    ∧ countTimeoutLogs (run_simulation W9w).log = 4
    ∧ (run_simulation W9w).result = .ret (.statusStr .FAIL) :=
  claim_C9_amended W9w 60 61 rfl rfl (fun _ _ => rfl) rfl rfl

end RosChecker
